import Mathlib

/-!
Verification of the truffle-contract-size plugin against its specification.

The repository has three variants of the same pipeline: the early variant
(unnamed part_000), the main `src/index.js` (sorting, checkMaxSize,
ignoreMocks), and the newer variant embedded in the README (cli-table3,
sizeInBytes, a Total row).  `src/index.js` definitions live at the top level
of the `ContractSize` namespace; the Total-row variant, where it differs,
lives in `ContractSize.TotalVariant`.

Numbers are modelled as exact rationals (the program only ever divides string
lengths by powers of two and rounds for display, so IEEE doubles compute the
same values on all inputs relevant here).  Strings are Lean strings; the
few JS string/number primitives the code uses (endsWith, slice, toFixed,
parseFloat, template interpolation) are modelled explicitly below.
-/

set_option maxRecDepth 100000

namespace ContractSize

/-- One decimal digit as a character. -/
def digitChar (k : Nat) : Char := Char.ofNat (48 + k)

/-- Decimal digits of a natural number, most significant first; fuel-indexed so
that it reduces structurally (the fuel is always taken larger than the number). -/
def natToCharsCore : Nat → Nat → List Char
  | 0, _ => []
  | fuel + 1, n =>
    if n < 10 then [digitChar n] else natToCharsCore fuel (n / 10) ++ [digitChar (n % 10)]

/-- Decimal digit list of a natural number, as JS renders integers. -/
def natToChars (n : Nat) : List Char := natToCharsCore (n + 1) n

/-- Decimal string of a natural number. -/
def natToStr (n : Nat) : String := String.mk (natToChars n)

/-- Numeric value of a decimal digit character. -/
def digitVal (c : Char) : Nat := c.toNat - 48

/-- Value of a list of decimal digit characters, most significant first. -/
def natOfDigits (ds : List Char) : Nat := ds.foldl (fun a c => 10 * a + digitVal c) 0

/-- The digits-and-dot part of Number.parseFloat, after the sign has been
consumed: integer digits, an optional dot with fractional digits; parsing
stops at the first character that cannot continue the number and returns the
value read so far.  `none` models NaN, returned when no digit was read. -/
def parseAfterSign (cs1 : List Char) (sgn : Rat) : Option Rat :=
  match cs1.dropWhile Char.isDigit with
  | '.' :: rest2 =>
    if (cs1.takeWhile Char.isDigit).isEmpty && (rest2.takeWhile Char.isDigit).isEmpty then
      none
    else
      some (sgn * ((natOfDigits (cs1.takeWhile Char.isDigit) : Rat) +
        (natOfDigits (rest2.takeWhile Char.isDigit) : Rat) /
          (10 : Rat) ^ (rest2.takeWhile Char.isDigit).length))
  | _ =>
    if (cs1.takeWhile Char.isDigit).isEmpty then none
    else some (sgn * (natOfDigits (cs1.takeWhile Char.isDigit) : Rat))

/-- JS Number.parseFloat on the character list of a string: an optional sign,
then parseAfterSign.  Exponents, Infinity and leading whitespace, which never
occur in the strings this program builds, are not modelled. -/
def parseFloatChars (cs : List Char) : Option Rat :=
  parseAfterSign (if cs.head? = some '-' ∨ cs.head? = some '+' then cs.tail else cs)
    (if cs.head? = some '-' then -1 else 1)

/-- JS Number.parseFloat. -/
def parseFloat (s : String) : Option Rat := parseFloatChars s.data

/-- The numeric value displayed by JS toFixed(2): the nearest multiple of one
hundredth, ties towards the larger value (ECMA ToFixed picks the larger n). -/
def toFixed2 (q : Rat) : Rat := ((round (q * 100) : Int) : Rat) / 100

/-- The string produced by JS toFixed(2). -/
def toFixed2Str (q : Rat) : String :=
  (if round (q * 100) < 0 then "-" else "") ++
    natToStr ((round (q * 100)).natAbs / 100) ++ "." ++
    (if (round (q * 100)).natAbs % 100 < 10 then
      "0" ++ natToStr ((round (q * 100)).natAbs % 100)
    else natToStr ((round (q * 100)).natAbs % 100))

/-- JS template-literal rendering of a number.  The numbers this program
interpolates are integers or odd multiples of one half (byte counts
(length-2)/2 and their sums, and the maxSize limit), rendered as e.g. "6000"
or "24.5"; this definition covers exactly those values. -/
def jsNumToString (q : Rat) : String :=
  (if q < 0 then "-" else "") ++
    (if q.den = 1 then natToStr q.num.natAbs else natToStr (q.num.natAbs / q.den) ++ ".5")

/-- JS String.prototype.endsWith: a suffix test on the code units. -/
def jsEndsWith (s patt : String) : Bool := List.isSuffixOf patt.data s.data

/-- JS s.slice(0, -n): drop the last n code units (yielding "" when n ≥ length,
exactly as the negative index clamps in JS). -/
def jsSliceDropRight (s : String) (n : Nat) : String :=
  String.mk (s.data.take (s.data.length - n))

/-- src/index.js 144-149 (identical in both other variants):
(byteCode.length - 2) / 2 / 1024, with no validation of the 0x prefix or of
evenness of the hex length. -/
def computeByteCodeSizeInKiB (byteCode : String) : Rat :=
  ((byteCode.length : Rat) - 2) / 2 / 1024

/-- A well-formed deployedBytecode string of the given byte count: 0x followed
by 2·bytes hex characters; used to instantiate concrete runs. -/
def mockByteCode (bytes : Nat) : String :=
  String.mk ('0' :: 'x' :: List.replicate (2 * bytes) 'a')

/-- src/index.js 12. -/
def DEFAULT_MAX_CONTRACT_SIZE_IN_KIB : Rat := 24

/-- src/index.js 151-153: toFixed(2) and a KiB suffix. -/
def formatByteCodeSize (byteCodeSize : Rat) : String := toFixed2Str byteCodeSize ++ " KiB"

/-- The parsed --checkMaxSize option in the states the threshold code
distinguishes: absent, bare flag (true), or a number. -/
inductive CheckMaxSizeOpt
  | unset
  | flagTrue
  | num (q : Rat)

/-- The head of the checkMaxSize block (src/index.js 66-67): the block runs only
when checkMaxSize is truthy (undefined and 0 are falsy), and the limit is the
default for the bare flag, else the given number itself. -/
def activeMaxSize : CheckMaxSizeOpt → Option Rat
  | .unset => none
  | .flagTrue => some DEFAULT_MAX_CONTRACT_SIZE_IN_KIB
  | .num q => if q = 0 then none else some q

/-- A JS value as yargs delivers --checkMaxSize: undefined, a boolean, a number
(with `none` as NaN), or a string (yargs keeps a value it cannot parse as a
number, such as "abc", as a string). -/
inductive JsVal
  | undef
  | boolean (b : Bool)
  | number (x : Option Rat)
  | str (s : String)
deriving DecidableEq

/-- JS Number.isNaN: true only for the number value NaN.  Unlike the global
isNaN it performs no coercion, so a string is never NaN to it. -/
def numberIsNaN : JsVal → Bool
  | .number none => true
  | _ => false

/-- src/index.js 136-142, verbatim: undefined is valid, otherwise valid when
strictly equal to true or not Number.isNaN. -/
def isValidCheckMaxSize (checkMaxSize : JsVal) : Bool :=
  if checkMaxSize = JsVal.undef then true
  else decide (checkMaxSize = JsVal.boolean true) || !numberIsNaN checkMaxSize

/-- The table.forEach threshold check (src/index.js 69-73; the Total variant's
171-175 is textually identical).  rowToString is the ToString coercion that
Number.parseFloat applies to row[1]: the identity on the plain string cells of
src/index.js, and the constant "[object Object]" on the cli-table3 cell
objects of the Total variant.  A NaN parse compares false against maxSize.
Each violation's done message interpolates row[0] and maxSize. -/
def maxSizeViolationsOn {β : Type} (rowToString : β → String)
    (checkMaxSize : CheckMaxSizeOpt) (table : List (String × β)) : List String :=
  match activeMaxSize checkMaxSize with
  | none => []
  | some maxSize =>
    table.filterMap fun row =>
      match parseFloat (rowToString row.2) with
      | none => none
      | some v =>
        if maxSize < v then
          some ("Contract " ++ row.1 ++ " is bigger than " ++ jsNumToString maxSize ++ " KiB")
        else none

/-- The threshold check of src/index.js, whose table rows are plain strings. -/
def maxSizeViolations (checkMaxSize : CheckMaxSizeOpt)
    (table : List (String × String)) : List String :=
  maxSizeViolationsOn id checkMaxSize table

/-- The result of fs.lstat relevant to checkFile. -/
structure FileStat where
  isFile : Bool
deriving DecidableEq

/-- src/index.js 155-167.  The first component lists the messages passed to
done; the second is how the async function finishes: when lstat rejects, the
catch block reports the error but does not return, so stat is still undefined
and the subsequent stat.isFile() throws a TypeError (modelled as .error). -/
def checkFile (filePath : String) (lstatResult : Except String FileStat) :
    List String × Except String Unit :=
  match lstatResult with
  | .error e =>
    (["Error while checking file " ++ filePath ++ ": " ++ e],
     .error "TypeError: Cannot read properties of undefined (reading isFile)")
  | .ok stat =>
    if !stat.isFile then (["Error: " ++ filePath ++ " is not a valid file"], .ok ())
    else ([], .ok ())

/-- The filter predicate inside getAllContractNames (src/index.js 198-208). -/
def artifactFilter (ignoreMocks : Bool) (file : String) : Bool :=
  if !jsEndsWith file ".json" then false
  else if ignoreMocks && jsEndsWith file "Mock.json" then false
  else true

/-- src/index.js 189-212, given the successful readdir listing (a readdir
rejection reports through done and then crashes on files.filter, like
checkFile; claims only concern the successful listing). -/
def getAllContractNames (dirFiles : List String) (ignoreMocks : Bool) : List String :=
  (dirFiles.filter (artifactFilter ignoreMocks)).map fun contractFile =>
    jsSliceDropRight contractFile 5

/-- One resolved contract (src/index.js 180-186).  relativeName, used only by
the disambiguatePaths display mode that no claim concerns, is elided. -/
structure ContractRef where
  file : String
  name : String
deriving DecidableEq

/-- src/index.js 169-187 (Total variant 236-249): explicit non-empty name lists
are used verbatim; otherwise the build directory is scanned. -/
def getContracts (contractsBuildDirectory : String) (contractNames : Option (List String))
    (ignoreMocks : Bool) (dirFiles : List String) : List ContractRef :=
  let names := match contractNames with
    | none => getAllContractNames dirFiles ignoreMocks
    | some ns => if ns.length = 0 then getAllContractNames dirFiles ignoreMocks else ns
  names.map fun contractName =>
    ⟨contractsBuildDirectory ++ "/" ++ contractName ++ ".json", contractName⟩

/-- One tableData record (src/index.js 48-52). -/
structure Row where
  name : String
  size : Rat
  formatSize : String
deriving DecidableEq

/-- lodash comparison of row[key] values: the name strings by code units, the
size numbers numerically; any other key reads undefined on every row, which
compares equal. -/
def compareKey (key : Option String) (a b : Row) : Bool :=
  if key = some "name" then decide (a.name ≤ b.name)
  else if key = some "size" then decide (a.size ≤ b.size)
  else true

/-- The lodash.orderBy comparator: compareKey, reversed for "desc" (any other
order value sorts ascending), ties keeping original order (lodash falls back
to the element index, making the sort stable). -/
def rowLe (key order : Option String) (a b : Row) : Bool :=
  if order = some "desc" then compareKey key b a else compareKey key a b

/-- Stable insertion into a sorted list: the element goes before the first
entry it compares ≤ to. -/
def insertSorted (le : Row → Row → Bool) (a : Row) : List Row → List Row
  | [] => [a]
  | b :: t => if le a b then a :: b :: t else b :: insertSorted le a t

/-- lodash.orderBy as a stable insertion sort by the rowLe comparator. -/
def orderBy (tableData : List Row) (key order : Option String) : List Row :=
  tableData.foldr (insertSorted (rowLe key order)) []

/-- JS truthiness of sortOptions[i]: undefined and "" are falsy. -/
def strTruthy : Option String → Bool
  | none => false
  | some s => !decide (s = "")

/-- src/index.js 96-120, returning the done warnings and the reordered data.
Note: when only the sort field is invalid the code keeps the given order
direction, and when the order is invalid it keeps the given field (the
condition (type !== name || type !== size) on line 112 is a tautology). -/
def orderTable (sortOptions : List String) (tableData : List Row) :
    List String × List Row :=
  let type := sortOptions.get? 0
  let order := sortOptions.get? 1
  if !strTruthy type && !strTruthy order then
    (["Warning: sort default by name and asc."], orderBy tableData (some "name") (some "asc"))
  else if (type ≠ some "name" ∧ type ≠ some "size") ∧ (order = some "asc" ∨ order = some "desc") then
    (["Warning: invalid value sort (valid values name or size)."],
     orderBy tableData (some "name") order)
  else if (order ≠ some "asc" ∧ order ≠ some "desc") ∧ (type ≠ some "name" ∨ type ≠ some "size") then
    (["Warning: invalid value order (valid values asc or desc)."],
     orderBy tableData type (some "asc"))
  else
    ([], orderBy tableData type order)

namespace TotalVariant

/-- Total variant line 110. -/
def VALUE_BYTES : Rat := 1024

/-- Total variant 210-212. -/
def convertToByte (valueKib : Rat) : Rat := valueKib * VALUE_BYTES

/-- Total variant 214-216. -/
def formatKiBCodeSize (kibteCodeSize : Rat) : String := toFixed2Str kibteCodeSize ++ " KiB"

/-- Total variant 218-220: template interpolation of the number, Bytes suffix. -/
def formatByteCodeSize (byteCodeSize : Rat) : String := jsNumToString byteCodeSize ++ " Bytes"

/-- A cli-table3 cell object with content and hAlign keys (hAlign, always
right, is elided).  JS ToString renders such a plain object as
"[object Object]", which is what Number.parseFloat receives for it. -/
structure Cell where
  content : String
deriving DecidableEq

/-- The ToString coercion of a cell object. -/
def Cell.jsToString : Cell → String := fun _ => "[object Object]"

/-- The ternary choosing a cell's text (Total variant 153-155 and 161-163). -/
def displayCell (sizeInBytes : Bool) (kib : Rat) : String :=
  if sizeInBytes then formatByteCodeSize (convertToByte kib) else formatKiBCodeSize kib

/-- The observable outcome of one Total-variant run: the fatal message of the
empty guard if it fired, the printed table, and the threshold check's done
messages. -/
structure RunOutcome where
  fatal : Option String
  printedTable : Option (List (String × Cell))
  violations : List String
deriving DecidableEq

/-- Total variant module.exports (118-180) on a run reaching the size
computations: artifacts maps each resolved file path to its deployedBytecode
string (the require and field access of 144-150; the checkFile and
missing-field failure paths are modelled by checkFile).  Concurrent pushes are
modelled in resolution order; this variant has no sorting.  The terminal
colour wrapping of the Total label is elided. -/
def runTotal (contractNames : Option (List String)) (ignoreMocks sizeInBytes : Bool)
    (checkMaxSize : CheckMaxSizeOpt) (contractsBuildDirectory : String)
    (dirFiles : List String) (artifacts : String → String) : RunOutcome :=
  let contracts := getContracts contractsBuildDirectory contractNames ignoreMocks dirFiles
  if contracts.length = 0 then
    ⟨some "There are no compiled contracts to calculate the size.", none, []⟩
  else
    let sizes := contracts.map fun c => (c.name, computeByteCodeSizeInKiB (artifacts c.file))
    let totalKib := (sizes.map fun p => p.2).sum
    let table := (sizes.map fun p => (p.1, Cell.mk (displayCell sizeInBytes p.2))) ++
      [("Total", Cell.mk (displayCell sizeInBytes totalKib))]
    ⟨none, some table, maxSizeViolationsOn Cell.jsToString checkMaxSize table⟩

end TotalVariant

/-! ### Helper lemmas about the JS number/string primitives -/

theorem digitChar_isDigit (k : Nat) (hk : k < 10) : (digitChar k).isDigit = true := by
  interval_cases k <;> decide

theorem digitVal_digitChar (k : Nat) (hk : k < 10) : digitVal (digitChar k) = k := by
  interval_cases k <;> decide

theorem natOfDigits_append_one (l : List Char) (c : Char) :
    natOfDigits (l ++ [c]) = 10 * natOfDigits l + digitVal c := by
  simp [natOfDigits, List.foldl_append]

theorem natToCharsCore_spec (fuel : Nat) : ∀ n : Nat, n < fuel →
    natToCharsCore fuel n ≠ [] ∧ natOfDigits (natToCharsCore fuel n) = n ∧
      ∀ c ∈ natToCharsCore fuel n, c.isDigit = true := by
  induction fuel with
  | zero => intro n h; omega
  | succ fuel ih =>
    intro n h
    by_cases h10 : n < 10
    · refine ⟨by simp [natToCharsCore, h10], ?_, ?_⟩
      · simp [natToCharsCore, h10, natOfDigits, digitVal_digitChar n h10]
      · simp only [natToCharsCore, if_pos h10, List.mem_singleton]
        rintro c rfl
        exact digitChar_isDigit n h10
    · have hdiv : n / 10 < n := Nat.div_lt_self (by omega) (by omega)
      have hfuel : n / 10 < fuel := by omega
      obtain ⟨h1, h2, h3⟩ := ih (n / 10) hfuel
      have e : natToCharsCore (fuel + 1) n =
          natToCharsCore fuel (n / 10) ++ [digitChar (n % 10)] := by
        simp [natToCharsCore, h10]
      refine ⟨by simp [e], ?_, ?_⟩
      · rw [e, natOfDigits_append_one, h2, digitVal_digitChar (n % 10) (by omega)]
        omega
      · intro c hc
        rw [e, List.mem_append] at hc
        rcases hc with hc | hc
        · exact h3 c hc
        · rw [List.mem_singleton] at hc
          subst hc
          exact digitChar_isDigit (n % 10) (by omega)

theorem natToChars_ne_nil (n : Nat) : natToChars n ≠ [] :=
  (natToCharsCore_spec (n + 1) n (by omega)).1

theorem natOfDigits_natToChars (n : Nat) : natOfDigits (natToChars n) = n :=
  (natToCharsCore_spec (n + 1) n (by omega)).2.1

theorem natToChars_isDigit (n : Nat) : ∀ c ∈ natToChars n, c.isDigit = true :=
  (natToCharsCore_spec (n + 1) n (by omega)).2.2

theorem natToCharsCore_small (fuel m : Nat) (hm : m < fuel) (h : m < 10) :
    natToCharsCore fuel m = [digitChar m] := by
  cases fuel with
  | zero => omega
  | succ fuel => simp [natToCharsCore, h]

theorem natToChars_small (m : Nat) (h : m < 10) : natToChars m = [digitChar m] :=
  natToCharsCore_small (m + 1) m (by omega) h

theorem natToChars_two (n : Nat) (h1 : 10 ≤ n) (h2 : n < 100) :
    natToChars n = [digitChar (n / 10), digitChar (n % 10)] := by
  have hdiv : n / 10 < n := Nat.div_lt_self (by omega) (by omega)
  have e : natToChars n = natToCharsCore n (n / 10) ++ [digitChar (n % 10)] := by
    rw [show natToChars n = if n < 10 then [digitChar n]
        else natToCharsCore n (n / 10) ++ [digitChar (n % 10)] from rfl,
      if_neg (by omega)]
  rw [e, natToCharsCore_small n (n / 10) hdiv (by omega)]
  rfl

theorem takeWhile_append_all (p : Char → Bool) (l r : List Char)
    (hl : ∀ c ∈ l, p c = true) : (l ++ r).takeWhile p = l ++ r.takeWhile p := by
  induction l with
  | nil => simp
  | cons a t ih =>
    have ha : p a = true := hl a (by simp)
    simp only [List.cons_append, List.takeWhile_cons, ha, if_true]
    rw [ih fun c hc => hl c (by simp [hc])]

theorem dropWhile_append_all (p : Char → Bool) (l r : List Char)
    (hl : ∀ c ∈ l, p c = true) : (l ++ r).dropWhile p = r.dropWhile p := by
  induction l with
  | nil => simp
  | cons a t ih =>
    have ha : p a = true := hl a (by simp)
    simp only [List.cons_append, List.dropWhile_cons, ha, if_true]
    exact ih fun c hc => hl c (by simp [hc])

theorem isDigit_ne_special (c : Char) (h : c.isDigit = true) :
    c ≠ '-' ∧ c ≠ '+' ∧ c ≠ '.' ∧ c ≠ ' ' := by
  refine ⟨?_, ?_, ?_, ?_⟩ <;> rintro rfl <;> exact absurd h (by decide)

theorem round_nonneg_of (q : Rat) (hq : 0 ≤ q) : 0 ≤ round q := by
  rw [round_eq]
  exact Int.floor_nonneg.2 (by linarith)

/-- Reading back the toFixed(2) display with parseFloat recovers exactly the
two-decimal value, for any nonnegative number and any trailing text starting
with a space (the unit suffixes this program appends). -/
theorem parseFloat_toFixed2Str (q : Rat) (hq : 0 ≤ q) (t : String)
    (ht : ∃ t2, t.data = ' ' :: t2) :
    parseFloat (toFixed2Str q ++ t) = some (toFixed2 q) := by
  obtain ⟨t2, ht2⟩ := ht
  have hn : 0 ≤ round (q * 100) := round_nonneg_of _ (by positivity)
  set n : Int := round (q * 100) with hndef
  set m : Nat := n.natAbs with hmdef
  have hmn : (m : Int) = n := Int.natAbs_of_nonneg hn
  set ip : List Char := natToChars (m / 100) with hip
  have hipd : ∀ c ∈ ip, c.isDigit = true := natToChars_isDigit _
  have hipne : ip ≠ [] := natToChars_ne_nil _
  obtain ⟨fp, hfpe, hfpd, hfpv, hfpl⟩ :
      ∃ fp : List Char, (if m % 100 < 10 then "0" ++ natToStr (m % 100)
          else natToStr (m % 100)).data = fp ∧
        (∀ c ∈ fp, c.isDigit = true) ∧ natOfDigits fp = m % 100 ∧ fp.length = 2 := by
    by_cases h10 : m % 100 < 10
    · refine ⟨'0' :: natToChars (m % 100), ?_, ?_, ?_, ?_⟩
      · simp [h10, String.data_append, natToStr]
      · intro c hc
        rcases List.mem_cons.1 hc with rfl | hc
        · decide
        · exact natToChars_isDigit _ c hc
      · rw [natToChars_small _ h10]
        show natOfDigits ('0' :: [digitChar (m % 100)]) = m % 100
        simp only [natOfDigits, List.foldl_cons, List.foldl_nil]
        rw [digitVal_digitChar (m % 100) h10, show digitVal '0' = 0 from by decide]
        omega
      · rw [natToChars_small _ h10]
        rfl
    · refine ⟨natToChars (m % 100), by simp [h10, natToStr], natToChars_isDigit _,
        natOfDigits_natToChars _, ?_⟩
      rw [natToChars_two (m % 100) (by omega) (Nat.mod_lt _ (by omega))]
      rfl
  have hdata : (toFixed2Str q ++ t).data = ip ++ '.' :: (fp ++ ' ' :: t2) := by
    unfold toFixed2Str
    rw [← hndef, if_neg (by omega), ← hmdef]
    simp only [String.data_append, hfpe, ht2]
    simp [natToStr, hip]
  obtain ⟨c0, ipt, hip0⟩ : ∃ c0 ipt, ip = c0 :: ipt := by
    cases hx : ip with
    | nil => exact absurd hx hipne
    | cons a b => exact ⟨a, b, rfl⟩
  have hc0 : c0.isDigit = true := hipd c0 (by rw [hip0]; simp)
  obtain ⟨hb1, hb2, hb3, hb4⟩ := isDigit_ne_special c0 hc0
  have hhead : (ip ++ '.' :: (fp ++ ' ' :: t2)).head? = some c0 := by
    rw [hip0]; rfl
  have hsgn : parseFloatChars (ip ++ '.' :: (fp ++ ' ' :: t2)) =
      parseAfterSign (ip ++ '.' :: (fp ++ ' ' :: t2)) 1 := by
    unfold parseFloatChars
    rw [hhead]
    simp [hb1, hb2]
  have htake : (ip ++ '.' :: (fp ++ ' ' :: t2)).takeWhile Char.isDigit = ip := by
    rw [takeWhile_append_all Char.isDigit ip _ hipd]
    simp [List.takeWhile_cons]
  have hdrop : (ip ++ '.' :: (fp ++ ' ' :: t2)).dropWhile Char.isDigit =
      '.' :: (fp ++ ' ' :: t2) := by
    rw [dropWhile_append_all Char.isDigit ip _ hipd]
    simp [List.dropWhile_cons]
  have htake2 : (fp ++ ' ' :: t2).takeWhile Char.isDigit = fp := by
    rw [takeWhile_append_all Char.isDigit fp _ hfpd]
    simp [List.takeWhile_cons]
  have hipe : ip.isEmpty = false := by rw [hip0]; rfl
  have hval : ((natOfDigits ip : Rat) + (natOfDigits fp : Rat) / (10 : Rat) ^ fp.length) =
      toFixed2 q := by
    rw [hfpv, hfpl, hip, natOfDigits_natToChars]
    have hc : (100 * (m / 100) + m % 100 : Nat) = m := Nat.div_add_mod m 100
    have hcq : (100 : Rat) * ((m / 100 : Nat) : Rat) + ((m % 100 : Nat) : Rat) = (m : Rat) := by
      exact_mod_cast congrArg (fun x : Nat => (x : Rat)) hc
    have hmq : (m : Rat) = ((n : Int) : Rat) := by exact_mod_cast congrArg (fun x : Int => (x : Rat)) hmn
    unfold toFixed2
    rw [← hndef, ← hmq]
    rw [show ((10 : Rat) ^ (2 : Nat)) = 100 by norm_num]
    field_simp
    linarith
  rw [parseFloat, hdata, hsgn]
  unfold parseAfterSign
  rw [hdrop]
  simp only [htake, htake2, hipe, Bool.false_and, if_neg Bool.false_ne_true]
  rw [one_mul, hval]

/-- parseFloat of an index.js row cell recovers the two-decimal KiB value. -/
theorem parseFloat_formatByteCodeSize (k : Rat) (hk : 0 ≤ k) :
    parseFloat (formatByteCodeSize k) = some (toFixed2 k) :=
  parseFloat_toFixed2Str k hk " KiB" ⟨['K', 'i', 'B'], rfl⟩

/-- parseFloat of a Total-variant KiB cell text recovers the two-decimal value. -/
theorem parseFloat_formatKiBCodeSize (k : Rat) (hk : 0 ≤ k) :
    parseFloat (TotalVariant.formatKiBCodeSize k) = some (toFixed2 k) :=
  parseFloat_toFixed2Str k hk " KiB" ⟨['K', 'i', 'B'], rfl⟩

/-! ### Claim theorems -/

/-- Claim C1: for an artifact whose deployedBytecode is "0x" followed by a hex
string of even length 2n, the size computation yields exactly n bytes, and
computeByteCodeSizeInKiB yields exactly n/1024 KiB — computed as
(stringLength - 2) / 2 / 1024 with no rounding anywhere. -/
theorem computeByteCodeSizeInKiB_exact (h : String) (n : Nat) (hl : h.length = 2 * n) :
    computeByteCodeSizeInKiB ("0x" ++ h) = (n : Rat) / 1024 ∧
      TotalVariant.convertToByte (computeByteCodeSizeInKiB ("0x" ++ h)) = (n : Rat) := by
  have hlen : ("0x" ++ h).length = 2 + 2 * n := by
    have e : ("0x" ++ h).length = "0x".length + h.length := by
      show ("0x" ++ h).data.length = _
      rw [String.data_append, List.length_append]
      rfl
    rw [e, hl]
    rfl
  have hkib : computeByteCodeSizeInKiB ("0x" ++ h) = (n : Rat) / 1024 := by
    unfold computeByteCodeSizeInKiB
    rw [hlen]
    push_cast
    ring
  refine ⟨hkib, ?_⟩
  rw [hkib]
  simp [TotalVariant.convertToByte, TotalVariant.VALUE_BYTES]

theorem computeByteCodeSizeInKiB_exact_witness :
    ("abcdef" : String).length = 2 * 3 ∧
      (computeByteCodeSizeInKiB ("0x" ++ "abcdef") = (3 : Rat) / 1024 ∧
        TotalVariant.convertToByte (computeByteCodeSizeInKiB ("0x" ++ "abcdef")) = (3 : Rat)) :=
  ⟨by decide, computeByteCodeSizeInKiB_exact "abcdef" 3 (by decide)⟩

/-- Claim C3 (the code violates it): isValidCheckMaxSize accepts the string
"abc" — and every other string — because Number.isNaN performs no coercion and
a string value is never the NaN number, so the "--checkMaxSize: invalid value"
error is not raised for unparseable option text and the run proceeds. -/
theorem isValidCheckMaxSize_accepts_strings :
    isValidCheckMaxSize (JsVal.str "abc") = true ∧
      ∀ s : String, isValidCheckMaxSize (JsVal.str s) = true := by
  refine ⟨by decide, fun s => ?_⟩
  simp [isValidCheckMaxSize, numberIsNaN]

/-- Claim C7: for a contract whose artifact path fails lstat or is not a
regular file, checkFile reports a fatal error message identifying that path,
with the underlying I/O error message appended in the lstat-failure case. -/
theorem checkFile_identifies_path (p e : String) (st : FileStat) :
    (checkFile p (.error e)).1 = ["Error while checking file " ++ p ++ ": " ++ e] ∧
      (st.isFile = false →
        (checkFile p (.ok st)).1 = ["Error: " ++ p ++ " is not a valid file"]) := by
  refine ⟨rfl, fun hf => ?_⟩
  simp [checkFile, hf]

theorem checkFile_identifies_path_witness :
    (FileStat.mk false).isFile = false ∧
      (checkFile "build/Missing.json" (.ok (FileStat.mk false))).1 =
        ["Error: build/Missing.json is not a valid file"] := by
  refine ⟨rfl, ?_⟩
  rw [(checkFile_identifies_path "build/Missing.json" "e" (FileStat.mk false)).2 rfl]
  decide

/-- Claim C9: the lstat-failure branch of checkFile is not total — the error
callback receives its message, but execution continues past it, evaluates
stat.isFile() on undefined, and throws a TypeError instead of returning
cleanly. -/
theorem checkFile_error_branch_crashes (p e : String) :
    (checkFile p (.error e)).1 = ["Error while checking file " ++ p ++ ": " ++ e] ∧
      (checkFile p (.error e)).2 =
        Except.error "TypeError: Cannot read properties of undefined (reading isFile)" :=
  ⟨rfl, rfl⟩

/-- Claim C5: with ignoreMocks set and no explicit name list, the directory
scan drops every entry ending in "Mock.json" while keeping every other .json
entry, naming it by stripping the .json suffix; an explicit non-empty name
list is used verbatim, in the given order, independent of the directory
contents and with no mock filtering — so an explicitly-named Mock contract is
still included. -/
theorem contractSelection (dir : String) (files files2 : List String) (ns : List String)
    (ign : Bool) (f : String) :
    (ns ≠ [] → (getContracts dir (some ns) ign files).map ContractRef.name = ns) ∧
    (ns ≠ [] → getContracts dir (some ns) ign files = getContracts dir (some ns) ign files2) ∧
    (jsEndsWith f "Mock.json" = true → f ∉ files.filter (artifactFilter true)) ∧
    (f ∈ files → jsEndsWith f ".json" = true → jsEndsWith f "Mock.json" = false →
      jsSliceDropRight f 5 ∈ getAllContractNames files true) := by
  have hverb : ∀ fs : List String, ns ≠ [] →
      getContracts dir (some ns) ign fs =
        ns.map fun nm => ⟨dir ++ "/" ++ nm ++ ".json", nm⟩ := by
    intro fs hns
    have hz : ¬(ns.length = 0) := fun hz => hns (List.length_eq_zero.1 hz)
    simp [getContracts, hz]
  have hnames : ∀ l : List String,
      (l.map fun nm => (⟨dir ++ "/" ++ nm ++ ".json", nm⟩ : ContractRef)).map
        ContractRef.name = l := by
    intro l
    induction l with
    | nil => rfl
    | cons a tl ih => simp [ih]
  refine ⟨fun hns => ?_, fun hns => ?_, fun hmock => ?_, fun hmem hjson hnomock => ?_⟩
  · rw [hverb files hns]
    exact hnames ns
  · rw [hverb files hns, hverb files2 hns]
  · intro hin
    have hpred := (List.mem_filter.1 hin).2
    have hfalse : artifactFilter true f = false := by
      unfold artifactFilter
      cases hjs : jsEndsWith f ".json" <;> simp [hjs, hmock]
    rw [hfalse] at hpred
    exact Bool.false_ne_true hpred
  · unfold getAllContractNames
    refine List.mem_map.2 ⟨f, List.mem_filter.2 ⟨hmem, ?_⟩, rfl⟩
    unfold artifactFilter
    simp [hjson, hnomock]

theorem contractSelection_witness :
    (["TokenMock"] : List String) ≠ [] ∧
      (getContracts "build" (some ["TokenMock"]) true
          ["TokenMock.json", "Token.json"]).map ContractRef.name = ["TokenMock"] ∧
      jsEndsWith "TokenMock.json" "Mock.json" = true ∧
      "TokenMock.json" ∉ (["TokenMock.json", "Token.json"].filter (artifactFilter true)) ∧
      ("Token.json" ∈ (["TokenMock.json", "Token.json"] : List String) ∧
        jsEndsWith "Token.json" ".json" = true ∧
        jsEndsWith "Token.json" "Mock.json" = false) ∧
      jsSliceDropRight "Token.json" 5 ∈
        getAllContractNames ["TokenMock.json", "Token.json"] true := by
  have h := contractSelection "build" ["TokenMock.json", "Token.json"]
    ["TokenMock.json", "Token.json"] ["TokenMock"] true "TokenMock.json"
  have h2 := contractSelection "build" ["TokenMock.json", "Token.json"]
    ["TokenMock.json", "Token.json"] ["TokenMock"] true "Token.json"
  exact ⟨by decide, h.1 (by decide), by decide, h.2.2.1 (by decide), by decide,
    h2.2.2.2 (by decide) (by decide) (by decide)⟩

/-- Claim C4: in the Total variant, a run with no explicit contract names
whose directory listing succeeds but yields no .json entry stops with the
distinct fatal no-compiled-contracts message — a fixed string, not an I/O
error — and prints no table. -/
theorem emptyScan_fatal (ign sz : Bool) (cm : CheckMaxSizeOpt) (dir : String)
    (dirFiles : List String) (artifacts : String → String)
    (hf : ∀ f ∈ dirFiles, jsEndsWith f ".json" = false) :
    TotalVariant.runTotal none ign sz cm dir dirFiles artifacts =
      ⟨some "There are no compiled contracts to calculate the size.", none, []⟩ := by
  have h0 : dirFiles.filter (artifactFilter ign) = [] := by
    rw [List.filter_eq_nil_iff]
    intro a ha
    simp [artifactFilter, hf a ha]
  have h1 : getAllContractNames dirFiles ign = [] := by
    unfold getAllContractNames
    rw [h0]
    rfl
  unfold TotalVariant.runTotal getContracts
  simp [h1]

theorem emptyScan_fatal_witness :
    (∀ f ∈ (["readme.txt"] : List String), jsEndsWith f ".json" = false) ∧
      TotalVariant.runTotal none false false .unset "build" ["readme.txt"] (fun _ => "0x") =
        ⟨some "There are no compiled contracts to calculate the size.", none, []⟩ :=
  ⟨by decide,
    emptyScan_fatal false false .unset "build" ["readme.txt"] (fun _ => "0x") (by decide)⟩

/-- Claim C6 counterexample: with sort option ["foo", "desc"] — an
unrecognized field with a valid direction — the code does not sort by the
claimed default of name ascending: it sorts by name in the requested
descending direction, reversing the order. -/
theorem orderTable_fallback_counterexample :
    (orderTable ["foo", "desc"] [⟨"A", 1, "1.00 KiB"⟩, ⟨"B", 2, "2.00 KiB"⟩]).2 ≠
      orderBy [⟨"A", 1, "1.00 KiB"⟩, ⟨"B", 2, "2.00 KiB"⟩] (some "name") (some "asc") := by
  with_unfolding_all decide

/-- Claim C6 amended: an unrecognized sort field or sort direction produces a
non-fatal warning and is replaced by its default individually, without
aborting the run: an unrecognized field sorts by name in the requested valid
direction (not always ascending), and an unrecognized direction keeps the
requested field and sorts ascending — when that field is itself unrecognized,
the data keeps its original order. -/
theorem orderTable_fallback (t o : String) (d : List Row) :
    ((t ≠ "name" ∧ t ≠ "size") → (o = "asc" ∨ o = "desc") →
      orderTable [t, o] d =
        (["Warning: invalid value sort (valid values name or size)."],
          orderBy d (some "name") (some o))) ∧
    ((o ≠ "asc" ∧ o ≠ "desc") → t ≠ "" →
      orderTable [t, o] d =
        (["Warning: invalid value order (valid values asc or desc)."],
          orderBy d (some t) (some "asc"))) ∧
    ((t ≠ "name" ∧ t ≠ "size") → orderBy d (some t) (some "asc") = d) := by
  have hle : (t ≠ "name" ∧ t ≠ "size") → ∀ a b : Row,
      rowLe (some t) (some "asc") a b = true := by
    rintro ⟨h1, h2⟩ a b
    simp [rowLe, compareKey, h1, h2]
  refine ⟨fun ht ho => ?_, fun ho ht => ?_, fun ht => ?_⟩
  · unfold orderTable
    rcases ho with rfl | rfl <;>
    · rw [if_neg (by simp [strTruthy]), if_pos ⟨⟨by simpa using ht.1, by simpa using ht.2⟩,
        by simp⟩]
      rfl
  · unfold orderTable
    have htor : (some t ≠ some "name") ∨ (some t ≠ some "size") := by
      by_cases hx : t = "name"
      · exact Or.inr (by simp [hx])
      · exact Or.inl (by simpa using hx)
    rw [if_neg (by simp [strTruthy, ht]),
      if_neg (fun hcc => hcc.2.elim (fun hx => ho.1 (Option.some.inj hx))
        (fun hx => ho.2 (Option.some.inj hx))),
      if_pos ⟨⟨fun hx => ho.1 (Option.some.inj hx), fun hx => ho.2 (Option.some.inj hx)⟩,
        htor⟩]
    rfl
  · induction d with
    | nil => rfl
    | cons a tl ih =>
      unfold orderBy at ih ⊢
      rw [List.foldr_cons, ih]
      cases tl with
      | nil => rfl
      | cons b tl2 => simp [insertSorted, hle ht a b]

theorem orderTable_fallback_witness :
    (("foo" : String) ≠ "name" ∧ ("foo" : String) ≠ "size") ∧
      (("desc" : String) = "asc" ∨ ("desc" : String) = "desc") ∧
      orderTable ["foo", "desc"] [⟨"A", 1, "1.00 KiB"⟩, ⟨"B", 2, "2.00 KiB"⟩] =
        (["Warning: invalid value sort (valid values name or size)."],
          orderBy [⟨"A", 1, "1.00 KiB"⟩, ⟨"B", 2, "2.00 KiB"⟩] (some "name") (some "desc")) :=
  ⟨by decide, by decide,
    (orderTable_fallback "foo" "desc" [⟨"A", 1, "1.00 KiB"⟩, ⟨"B", 2, "2.00 KiB"⟩]).1
      (by decide) (by decide)⟩

/-- The done message of a threshold violation at the default limit is the
interpolated string naming the contract and the limit. -/
theorem violationMsg_default (nm : String) :
    "Contract " ++ nm ++ " is bigger than " ++ jsNumToString 24 ++ " KiB" =
      "Contract " ++ nm ++ " is bigger than 24 KiB" := by
  have hj : jsNumToString (24 : Rat) = "24" := by with_unfolding_all decide
  rw [hj]
  have h2 : (" is bigger than " ++ ("24" ++ " KiB") : String) = " is bigger than 24 KiB" := by
    decide
  calc "Contract " ++ nm ++ " is bigger than " ++ "24" ++ " KiB"
      = ("Contract " ++ nm) ++ (" is bigger than " ++ ("24" ++ " KiB")) := by
        rw [String.append_assoc, String.append_assoc]
    _ = "Contract " ++ nm ++ " is bigger than 24 KiB" := by rw [h2]

/-- Evaluating the threshold check on a single string row at limit 24. -/
theorem maxSizeViolations_single (cm : CheckMaxSizeOpt) (hcm : activeMaxSize cm = some 24)
    (nm : String) (k : Rat) (hk : 0 ≤ k) :
    maxSizeViolations cm [(nm, formatByteCodeSize k)] =
      if (24 : Rat) < toFixed2 k then ["Contract " ++ nm ++ " is bigger than 24 KiB"]
      else [] := by
  unfold maxSizeViolations maxSizeViolationsOn
  rw [hcm]
  simp only [List.filterMap_cons, List.filterMap_nil, id_eq]
  rw [parseFloat_formatByteCodeSize k hk]
  by_cases hv : (24 : Rat) < toFixed2 k
  · simp [hv, violationMsg_default nm]
  · simp [hv]

/-- Claim C2: with checkMaxSize unset the evaluator checks nothing and the run
succeeds regardless of sizes; with a check active (bare flag giving the
default 24 KiB limit, or the explicit numeric limit 24) each displayed row
size is re-parsed and compared with strict greater-than, so a contract
displaying exactly 24.00 KiB passes and a contract displaying at least
24.01 KiB yields the fatal done message naming the contract and the limit. -/
theorem maxSizeCheck_strict (table : List (String × String)) (nm : String) (k : Rat)
    (hk : 0 ≤ k) :
    maxSizeViolations .unset table = [] ∧
      (toFixed2 k = 24 →
        maxSizeViolations .flagTrue [(nm, formatByteCodeSize k)] = [] ∧
        maxSizeViolations (.num 24) [(nm, formatByteCodeSize k)] = []) ∧
      (24 + 1 / 100 ≤ toFixed2 k →
        maxSizeViolations .flagTrue [(nm, formatByteCodeSize k)] =
          ["Contract " ++ nm ++ " is bigger than 24 KiB"] ∧
        maxSizeViolations (.num 24) [(nm, formatByteCodeSize k)] =
          ["Contract " ++ nm ++ " is bigger than 24 KiB"]) := by
  have hflag : activeMaxSize .flagTrue = some 24 := rfl
  have hnum : activeMaxSize (.num 24) = some 24 := by
    rw [show activeMaxSize (.num 24) = if (24 : Rat) = 0 then none else some 24 from rfl,
      if_neg (by norm_num)]
  refine ⟨rfl, fun h240 => ?_, fun hge => ?_⟩
  · have hnot : ¬((24 : Rat) < toFixed2 k) := by rw [h240]; exact lt_irrefl _
    rw [maxSizeViolations_single .flagTrue hflag nm k hk, if_neg hnot,
      maxSizeViolations_single (.num 24) hnum nm k hk, if_neg hnot]
    exact ⟨rfl, rfl⟩
  · have hlt : (24 : Rat) < toFixed2 k := by linarith
    rw [maxSizeViolations_single .flagTrue hflag nm k hk, if_pos hlt,
      maxSizeViolations_single (.num 24) hnum nm k hk, if_pos hlt]
    exact ⟨rfl, rfl⟩

theorem maxSizeCheck_strict_witness :
    ((0 : Rat) ≤ 24587 / 1024 ∧ 24 + 1 / 100 ≤ toFixed2 (24587 / 1024) ∧
        maxSizeViolations .flagTrue [("Big", formatByteCodeSize (24587 / 1024))] =
          ["Contract Big is bigger than 24 KiB"]) ∧
      ((0 : Rat) ≤ 24576 / 1024 ∧ toFixed2 (24576 / 1024) = 24 ∧
        maxSizeViolations .flagTrue [("Ok", formatByteCodeSize (24576 / 1024))] = []) := by
  refine ⟨⟨by with_unfolding_all decide, by with_unfolding_all decide, ?_⟩,
    ⟨by with_unfolding_all decide, by with_unfolding_all decide, ?_⟩⟩
  · exact ((maxSizeCheck_strict [] "Big" (24587 / 1024)
      (by with_unfolding_all decide)).2.2 (by with_unfolding_all decide)).1
  · exact ((maxSizeCheck_strict [] "Ok" (24576 / 1024)
      (by with_unfolding_all decide)).2.1 (by with_unfolding_all decide)).1

/-- Claim C8: the Total-variant table always ends with a row distinctly
labelled Total whose cell displays, in the selected unit, exactly the sum of
the per-contract sizes (the witness instantiates the 1000 + 2000 + 3000 =
6000 bytes = 5.859375 KiB example in both display units). -/
theorem totalRow_is_sum (ns : List String) (ign sz : Bool) (cm : CheckMaxSizeOpt)
    (dir : String) (dirFiles : List String) (artifacts : String → String) (hns : ns ≠ []) :
    (TotalVariant.runTotal (some ns) ign sz cm dir dirFiles artifacts).printedTable =
      some ((ns.map fun nm => (nm, TotalVariant.Cell.mk (TotalVariant.displayCell sz
          (computeByteCodeSizeInKiB (artifacts (dir ++ "/" ++ nm ++ ".json")))))) ++
        [("Total", TotalVariant.Cell.mk (TotalVariant.displayCell sz
          ((ns.map fun nm =>
            computeByteCodeSizeInKiB (artifacts (dir ++ "/" ++ nm ++ ".json"))).sum)))]) := by
  have hz : ¬(ns.length = 0) := fun h => hns (List.length_eq_zero.1 h)
  have hcon : getContracts dir (some ns) ign dirFiles =
      ns.map fun nm => ⟨dir ++ "/" ++ nm ++ ".json", nm⟩ := by
    simp [getContracts, hz]
  simp only [TotalVariant.runTotal, hcon, List.length_map, hz, if_false, List.map_map]
  rfl

theorem mockByteCode_size (b : Nat) :
    computeByteCodeSizeInKiB (mockByteCode b) = (b : Rat) / 1024 := by
  have hlen : (mockByteCode b).length = 2 + 2 * b := by
    show ('0' :: 'x' :: List.replicate (2 * b) 'a').length = 2 + 2 * b
    simp
    omega
  unfold computeByteCodeSizeInKiB
  rw [hlen]
  push_cast
  ring

theorem totalRow_is_sum_witness :
    (["A", "BB", "CCC"] : List String) ≠ [] ∧
      (TotalVariant.runTotal (some ["A", "BB", "CCC"]) false false .unset "build" []
          (fun p => mockByteCode (1000 * (p.length - 11)))).printedTable =
        some [("A", ⟨"0.98 KiB"⟩), ("BB", ⟨"1.95 KiB"⟩), ("CCC", ⟨"2.93 KiB"⟩),
          ("Total", ⟨"5.86 KiB"⟩)] ∧
      (TotalVariant.runTotal (some ["A", "BB", "CCC"]) false true .unset "build" []
          (fun p => mockByteCode (1000 * (p.length - 11)))).printedTable =
        some [("A", ⟨"1000 Bytes"⟩), ("BB", ⟨"2000 Bytes"⟩), ("CCC", ⟨"3000 Bytes"⟩),
          ("Total", ⟨"6000 Bytes"⟩)] := by
  refine ⟨by decide, ?_, ?_⟩ <;>
  · rw [totalRow_is_sum ["A", "BB", "CCC"] _ _ .unset "build" [] _ (by decide)]
    simp only [List.map_cons, List.map_nil, mockByteCode_size]
    with_unfolding_all decide

/-- Claim C10 counterexample: a Total-variant run at explicit limit 1 KiB with
two contracts of 513 bytes each: every contract is individually below the
limit and the summed size, 1026 bytes = 1.001953125 KiB, exceeds it — yet the
run produces no violation whatsoever (and no fatal guard message): it does
not fail, and in particular does not fail naming Total. -/
theorem totalCheck_counterexample :
    (1 : Rat) <
        computeByteCodeSizeInKiB (mockByteCode 513) +
          computeByteCodeSizeInKiB (mockByteCode 513) ∧
      computeByteCodeSizeInKiB (mockByteCode 513) < 1 ∧
      (TotalVariant.runTotal (some ["A", "B"]) false false (.num 1) "build" []
        (fun _ => mockByteCode 513)).violations = [] ∧
      (TotalVariant.runTotal (some ["A", "B"]) false false (.num 1) "build" []
        (fun _ => mockByteCode 513)).fatal = none := by
  refine ⟨?_, ?_, ?_, ?_⟩ <;> with_unfolding_all decide

/-- The threshold check never produces a violation on cli-table3 cell rows:
every cell coerces to "[object Object]", which parses as NaN. -/
theorem maxSizeViolationsOn_cells (cm : CheckMaxSizeOpt)
    (tbl : List (String × TotalVariant.Cell)) :
    maxSizeViolationsOn TotalVariant.Cell.jsToString cm tbl = [] := by
  unfold maxSizeViolationsOn
  cases hcm : activeMaxSize cm with
  | none => rfl
  | some m =>
    rw [List.filterMap_eq_nil_iff]
    intro row hrow
    have hp : parseFloat (TotalVariant.Cell.jsToString row.2) = none := by
      show parseFloat "[object Object]" = none
      decide
    rw [hp]

/-- Claim C10 amended: the Total-variant threshold evaluator does iterate over
every table row, the Total row included, but each size cell it reads is a
cli-table3 content object whose string coercion "[object Object]" re-parses
as NaN, and NaN compares false against the limit — so no row, the Total row
included, ever produces a violation, and a run whose summed size exceeds the
active limit still passes the check. -/
theorem totalCheck_never_fires (contractNames : Option (List String)) (ign sz : Bool)
    (cm : CheckMaxSizeOpt) (dir : String) (dirFiles : List String)
    (artifacts : String → String) :
    (TotalVariant.runTotal contractNames ign sz cm dir dirFiles artifacts).violations = [] := by
  unfold TotalVariant.runTotal
  by_cases hc : (getContracts dir contractNames ign dirFiles).length = 0
  · simp [hc]
  · simp [hc, maxSizeViolationsOn_cells]

end ContractSize
